import Mathlib

set_option maxRecDepth 1000000
set_option linter.unusedVariables false

/-!
Shallow embedding of `src/bolt/message.rs` from rs4neo: the PackStream
message encoder (`Packer`), the decoder (`Unpacker`) and the chunked wire
framing (`PackStream::read_message` / `PackStream::write_message`).

Conventions of the embedding:
* machine integers are `Nat`/`Int`; a byte is a `Nat` (meaningful inputs
  keep bytes below 256);
* Rust panics (out-of-bounds indexing, `.unwrap()`, explicit `panic!`)
  are modelled as distinguished `panic…` constructors of the error types,
  so that an aborted execution stays observable and distinct from the
  `std::io::Error` values the source actually returns;
* `f64` values are represented by their 8-byte big-endian bit pattern,
  which is the only thing the encoder and decoder ever inspect;
* a Rust `String` is represented by its UTF-8 byte sequence
  (`s.as_bytes()`), which is the only view the codec uses;
* `slice::as_ptr()` (used by `Unpacker::unpack` on length slices) is
  modelled with a ghost allocation address `base` carried by the decode
  buffer: the slice starting at cursor `pos` has address `base + pos`.
-/

/-- Big-endian base-256 digits: `beBytes w n` is the `w`-byte big-endian
representation of `n % 256 ^ w` (Rust `uN::to_be_bytes`, and
`usize::to_be_bytes` with `w = 8` on the 64-bit hosts this crate targets). -/
def beBytes (w : Nat) (n : Nat) : List Nat :=
  (List.range w).map fun k => n / 256 ^ (w - 1 - k) % 256

/-- Big-endian bytes back to an unsigned value (Rust `uN::from_be_bytes`). -/
def beToNat (l : List Nat) : Nat :=
  l.foldl (fun acc b => acc * 256 + b) 0

/-- Two's-complement big-endian bytes of a signed `w`-byte integer
(Rust `iN::to_be_bytes`). -/
def toBeBytesSigned (w : Nat) (i : Int) : List Nat :=
  beBytes w ((i % ((256 ^ w : Nat) : Int)).toNat)

/-- Rust `iN::from_be_bytes` over `w` big-endian bytes. -/
def beToInt (w : Nat) (l : List Nat) : Int :=
  let n := beToNat l
  if n < 256 ^ w / 2 then (n : Int) else (n : Int) - ((256 ^ w : Nat) : Int)

/-- The `MessageValue` enum.  `Structure(MessageStructure)` is inlined to
`Structure (tag) (fields)` since `MessageStructure` is just the pair of a
signature byte and the ordered field list. -/
inductive MessageValue where
  | String (s : List Nat)
  | Bytes (b : List Nat)
  | TinyInt (i : Int)
  | SmallInt (i : Int)
  | Int (i : Int)
  | BigInt (i : Int)
  | Float (bits : Nat)
  | Bool (b : Bool)
  | Structure (tag : Nat) (fields : List MessageValue)
  | Null

/-- `MessageBuffer`: the fixed-length encode sink (`vec![0; capacity]`)
plus a write cursor. -/
structure MessageBuffer where
  buffer : List Nat
  cursor : Nat

/-- `MessageBuffer::new(capacity)` — a zero-filled buffer of the given
length with the cursor at 0. -/
def MessageBuffer.new (capacity : Nat) : MessageBuffer :=
  ⟨List.replicate capacity 0, 0⟩

/-- `MessageBuffer::try_write`: copies `min(data.len(), remaining)` bytes
of `data` into `buffer[cursor..]`, advances the cursor by that amount and
returns how many bytes were written.  The source's `Result` is always
`Ok`, so the embedding returns the pair directly; note that a full buffer
makes this silently drop the tail of `data`. -/
def MessageBuffer.try_write (mb : MessageBuffer) (data : List Nat) :
    MessageBuffer × Nat :=
  let len := mb.buffer.length
  let remaining := len - mb.cursor
  let written := min data.length remaining
  (⟨mb.buffer.take mb.cursor ++ data.take written
      ++ mb.buffer.drop (mb.cursor + written),
    mb.cursor + written⟩, written)

/-- The bytes actually written so far: `buffer[..cursor]`. -/
def MessageBuffer.emitted (mb : MessageBuffer) : List Nat :=
  mb.buffer.take mb.cursor

/-- Encoder-side aborts.  Each constructor models an explicit
`panic!(..)` in the source, not a returned `std::io::Error`. -/
inductive PackError where
  | panicStructSizeOverflow
  | panicStringHeaderOverflow
  | panicBytesHeaderOverflow
  deriving DecidableEq

/-- `Packer::pack_raw` — a single `try_write` whose byte count is
discarded. -/
def Packer.pack_raw (mb : MessageBuffer) (data : List Nat) : MessageBuffer :=
  (mb.try_write data).1

/-- `Packer::pack_string_header`.  The source matches on `length` with the
arms, in order: the sixteen literal arms `0x00` … `0x0F` (markers `0x80` …
`0x8F`), an arm `0x00..=0xF` (unreachable: fully shadowed by the literal
arms), `0x100..=0xFFFF` (marker `0xD1`), `0x10000..=0xFFFFFFFF` (marker
`0xD2`), and a catch-all `panic!("String header size overflow")`.  Hence
lengths 16–255 and lengths ≥ 2^32 fall into the panic arm, and the `0xD1`
and `0xD2` arms append `length.to_be_bytes()` — all 8 bytes of the native
`usize`. -/
def Packer.pack_string_header (length : Nat) (mb : MessageBuffer) :
    Except PackError MessageBuffer :=
  if length ≤ 0x0F then
    .ok ((mb.try_write [0x80 + length]).1)
  else if 0x100 ≤ length ∧ length ≤ 0xFFFF then
    .ok (((mb.try_write [0xD1]).1).try_write (beBytes 8 length)).1
  else if 0x10000 ≤ length ∧ length ≤ 0xFFFFFFFF then
    .ok (((mb.try_write [0xD2]).1).try_write (beBytes 8 length)).1
  else
    .error .panicStringHeaderOverflow

/-- `Packer::pack_bytes_header`: arms `0x00..=0xFF` (marker `0xCC`),
`0x100..=0xFFFF` (marker `0xCD`), `0x10000..=0xFFFFFFFF` (marker `0xCE`),
else `panic!("Bytes header size overflow")`.  Each arm appends
`length.to_be_bytes()` — all 8 native `usize` bytes. -/
def Packer.pack_bytes_header (length : Nat) (mb : MessageBuffer) :
    Except PackError MessageBuffer :=
  if length ≤ 0xFF then
    .ok (((mb.try_write [0xCC]).1).try_write (beBytes 8 length)).1
  else if 0x100 ≤ length ∧ length ≤ 0xFFFF then
    .ok (((mb.try_write [0xCD]).1).try_write (beBytes 8 length)).1
  else if 0x10000 ≤ length ∧ length ≤ 0xFFFFFFFF then
    .ok (((mb.try_write [0xCE]).1).try_write (beBytes 8 length)).1
  else
    .error .panicBytesHeaderOverflow

mutual

/-- `Packer::pack`.  The `Structure` branch is `Packer::pack_struct`
inlined: sixteen arms write markers `0xB0` … `0xBF` for field counts
0 … 15 (collapsed here to `0xB0 + size`), any larger count hits
`panic!("Struct size overflow")`; then the signature byte is written and
every field packed in order. -/
def Packer.pack : MessageValue → MessageBuffer → Except PackError MessageBuffer
  | .Null, mb => .ok (mb.try_write [0xC0]).1
  | .Bool b, mb =>
      if b then .ok (mb.try_write [0xC3]).1 else .ok (mb.try_write [0xC2]).1
  | .Float bits, mb =>
      .ok (((mb.try_write [0xC1]).1).try_write (beBytes 8 bits)).1
  | .TinyInt i, mb =>
      if -0x10 ≤ i then
        .ok (mb.try_write (toBeBytesSigned 1 i)).1
      else
        .ok (((mb.try_write [0xC8]).1).try_write (toBeBytesSigned 1 i)).1
  | .SmallInt i, mb =>
      .ok (((mb.try_write [0xC9]).1).try_write (toBeBytesSigned 2 i)).1
  | .Int i, mb =>
      .ok (((mb.try_write [0xCA]).1).try_write (toBeBytesSigned 4 i)).1
  | .BigInt i, mb =>
      .ok (((mb.try_write [0xCB]).1).try_write (toBeBytesSigned 8 i)).1
  | .String s, mb =>
      match Packer.pack_string_header s.length mb with
      | .error e => .error e
      | .ok mb => .ok (mb.try_write s).1
  | .Bytes b, mb =>
      match Packer.pack_bytes_header b.length mb with
      | .error e => .error e
      | .ok mb => .ok (mb.try_write b).1
  | .Structure tag fields, mb =>
      if fields.length ≤ 0x0F then
        Packer.packFields fields
          (((mb.try_write [0xB0 + fields.length]).1).try_write [tag]).1
      else
        .error .panicStructSizeOverflow

/-- The `for field in fields { self.pack(field)?; }` loop of
`Packer::pack_struct`. -/
def Packer.packFields : List MessageValue → MessageBuffer →
    Except PackError MessageBuffer
  | [], mb => .ok mb
  | f :: fs, mb =>
      match Packer.pack f mb with
      | .error e => .error e
      | .ok mb => Packer.packFields fs mb

end

/-- Run the packer on a fresh buffer of the given capacity and return the
bytes written (`buffer[..cursor]`). -/
def Packer.packedBytes (v : MessageValue) (capacity : Nat) :
    Except PackError (List Nat) :=
  match Packer.pack v (MessageBuffer.new capacity) with
  | .ok mb => .ok mb.emitted
  | .error e => .error e

/-- `UnpackableBuffer`: the decode source.  `buffer`, `used` and `pos` are
the source's fields; `base` is the ghost allocation address of
`buffer[0]`, used to model `slice::as_ptr()` (the slice handed out at
cursor `p` lives at address `base + p`). -/
structure UnpackableBuffer where
  base : Nat
  buffer : List Nat
  used : Nat
  pos : Nat

/-- Decoder-side outcomes that are not values.  `eof` and `invalidData`
are the two `std::io::Error` kinds the source constructs; `panicIndex`
models the unchecked `self.buffer[self.pos]` indexing of `read_u8` and
`panicUtf8` the `String::from_utf8(..).unwrap()` calls — both Rust panics,
not returned errors.  `fuel` is an artifact of the embedding's fuelled
recursion and is unreachable for the fuel budgets used here. -/
inductive UnpackError where
  | eof
  | invalidData
  | panicIndex
  | panicUtf8
  | fuel
  deriving DecidableEq

/-- `UnpackableBuffer::read(n)`: fails with `UnexpectedEof` when fewer
than `n` bytes remain past the cursor, otherwise yields the `n` bytes,
the address of their slice (`as_ptr`), and the advanced buffer. -/
def UnpackableBuffer.read (ub : UnpackableBuffer) (n : Nat) :
    Except UnpackError (List Nat × Nat × UnpackableBuffer) :=
  if ub.pos + n > ub.buffer.length then .error .eof
  else .ok ((ub.buffer.drop ub.pos).take n, ub.base + ub.pos,
            { ub with pos := ub.pos + n })

/-- `UnpackableBuffer::read_u8`: indexes `buffer[pos]` with no bounds
check, so an exhausted buffer is a Rust panic, not an `Err`. -/
def UnpackableBuffer.read_u8 (ub : UnpackableBuffer) :
    Except UnpackError (Nat × UnpackableBuffer) :=
  if h : ub.pos < ub.buffer.length then
    .ok (ub.buffer.get ⟨ub.pos, h⟩, { ub with pos := ub.pos + 1 })
  else .error .panicIndex

/-- Validity of a byte sequence as UTF-8, as checked by Rust's
`String::from_utf8` (a dependency of the source that lives in Rust's
standard library): ASCII, and 2/3/4-byte sequences with the standard
continuation ranges, excluding overlong forms and surrogates. -/
def isValidUtf8 : List Nat → Bool
  | [] => true
  | b :: rest =>
    if b ≤ 0x7F then isValidUtf8 rest
    else if b ≤ 0xC1 then false
    else if b ≤ 0xDF then
      match rest with
      | c1 :: r => decide (0x80 ≤ c1 ∧ c1 ≤ 0xBF) && isValidUtf8 r
      | [] => false
    else if b ≤ 0xEF then
      match rest with
      | c1 :: c2 :: r =>
        (if b = 0xE0 then decide (0xA0 ≤ c1 ∧ c1 ≤ 0xBF)
         else if b = 0xED then decide (0x80 ≤ c1 ∧ c1 ≤ 0x9F)
         else decide (0x80 ≤ c1 ∧ c1 ≤ 0xBF))
          && decide (0x80 ≤ c2 ∧ c2 ≤ 0xBF) && isValidUtf8 r
      | _ => false
    else if b ≤ 0xF4 then
      match rest with
      | c1 :: c2 :: c3 :: r =>
        (if b = 0xF0 then decide (0x90 ≤ c1 ∧ c1 ≤ 0xBF)
         else if b = 0xF4 then decide (0x80 ≤ c1 ∧ c1 ≤ 0x8F)
         else decide (0x80 ≤ c1 ∧ c1 ≤ 0xBF))
          && decide (0x80 ≤ c2 ∧ c2 ≤ 0xBF) && decide (0x80 ≤ c3 ∧ c3 ≤ 0xBF)
          && isValidUtf8 r
      | _ => false
    else false

/-- `Unpacker::_unpack_structure_header`: checks the high nibble is
`0xB0`, reads the signature byte, and returns `(size, sig)` where `size`
is the low nibble. -/
def Unpacker.unpackStructureHeaderWith (marker : Nat) (ub : UnpackableBuffer) :
    Except UnpackError (Nat × Nat × UnpackableBuffer) :=
  if marker / 16 * 16 = 0xB0 then
    match ub.read 1 with
    | .error e => .error e
    | .ok (sig, _, ub) => .ok (marker % 16, sig.headD 0, ub)
  else .error .invalidData

mutual

/-- `Unpacker::unpack`, fuelled.  The branches follow the source's match
arms in order; note the `0xCC`–`0xCE` and `0xD0`–`0xD2` arms, where the
source computes `let size = self.read(k)?.as_ptr();` and then reads
`size as usize` bytes — i.e. the *address* of the length slice, not the
value of the length bytes, decides how much content is read. -/
def Unpacker.unpackFuel : Nat → UnpackableBuffer →
    Except UnpackError (MessageValue × UnpackableBuffer)
  | 0, _ => .error .fuel
  | fuel + 1, ub0 =>
    match ub0.read_u8 with
    | .error e => .error e
    | .ok (marker, ub) =>
      if marker = 0xC0 then .ok (.Null, ub)
      else if marker = 0xC2 then .ok (.Bool false, ub)
      else if marker = 0xC3 then .ok (.Bool true, ub)
      else if marker = 0xC1 then
        match ub.read 8 with
        | .error e => .error e
        | .ok (val, _, ub) => .ok (.Float (beToNat val), ub)
      else if marker ≤ 0x7F then .ok (.TinyInt (beToInt 1 [marker]), ub)
      else if 0xF0 ≤ marker ∧ marker ≤ 0xFF then
        .ok (.TinyInt (beToInt 1 [marker]), ub)
      else if marker = 0xC8 then
        match ub.read 1 with
        | .error e => .error e
        | .ok (val, _, ub) => .ok (.TinyInt (beToInt 1 val), ub)
      else if marker = 0xC9 then
        match ub.read 2 with
        | .error e => .error e
        | .ok (val, _, ub) => .ok (.SmallInt (beToInt 2 val), ub)
      else if marker = 0xCA then
        match ub.read 4 with
        | .error e => .error e
        | .ok (val, _, ub) => .ok (.Int (beToInt 4 val), ub)
      else if marker = 0xCB then
        match ub.read 8 with
        | .error e => .error e
        | .ok (val, _, ub) => .ok (.BigInt (beToInt 8 val), ub)
      else if marker = 0xCC then
        match ub.read 1 with
        | .error e => .error e
        | .ok (_, ptr, ub) =>
          match ub.read ptr with
          | .error e => .error e
          | .ok (content, _, ub) => .ok (.Bytes content, ub)
      else if marker = 0xCD then
        match ub.read 2 with
        | .error e => .error e
        | .ok (_, ptr, ub) =>
          match ub.read ptr with
          | .error e => .error e
          | .ok (content, _, ub) => .ok (.Bytes content, ub)
      else if marker = 0xCE then
        match ub.read 4 with
        | .error e => .error e
        | .ok (_, ptr, ub) =>
          match ub.read ptr with
          | .error e => .error e
          | .ok (content, _, ub) => .ok (.Bytes content, ub)
      else if marker = 0xD0 then
        match ub.read 1 with
        | .error e => .error e
        | .ok (_, ptr, ub) =>
          match ub.read ptr with
          | .error e => .error e
          | .ok (sbytes, _, ub) =>
            if isValidUtf8 sbytes then .ok (.String sbytes, ub)
            else .error .panicUtf8
      else if marker = 0xD1 then
        match ub.read 2 with
        | .error e => .error e
        | .ok (_, ptr, ub) =>
          match ub.read ptr with
          | .error e => .error e
          | .ok (sbytes, _, ub) =>
            if isValidUtf8 sbytes then .ok (.String sbytes, ub)
            else .error .panicUtf8
      else if marker = 0xD2 then
        match ub.read 4 with
        | .error e => .error e
        | .ok (_, ptr, ub) =>
          match ub.read ptr with
          | .error e => .error e
          | .ok (sbytes, _, ub) =>
            if isValidUtf8 sbytes then .ok (.String sbytes, ub)
            else .error .panicUtf8
      else if 0xB0 ≤ marker ∧ marker ≤ 0xBF then
        match Unpacker.unpackStructureHeaderWith marker ub with
        | .error e => .error e
        | .ok (size, tag, ub) =>
          match Unpacker.unpackFields fuel size ub with
          | .error e => .error e
          | .ok (fields, ub) => .ok (.Structure tag fields, ub)
      else if marker / 16 * 16 = 0x80 then
        match ub.read (marker % 16) with
        | .error e => .error e
        | .ok (sbytes, _, ub) =>
          if isValidUtf8 sbytes then .ok (.String sbytes, ub)
          else .error .panicUtf8
      else .error .invalidData

/-- The `for _ in 0..size { value.fields.push(self.unpack()?); }` loop of
the structure arm. -/
def Unpacker.unpackFields : Nat → Nat → UnpackableBuffer →
    Except UnpackError (List MessageValue × UnpackableBuffer)
  | _, 0, ub => .ok ([], ub)
  | 0, _ + 1, _ => .error .fuel
  | fuel + 1, n + 1, ub =>
    match Unpacker.unpackFuel fuel ub with
    | .error e => .error e
    | .ok (v, ub) =>
      match Unpacker.unpackFields fuel n ub with
      | .error e => .error e
      | .ok (vs, ub) => .ok (v :: vs, ub)

end

/-- `Unpacker::unpack` on a buffer.  The fuel `2 * buffer.length + 2`
over-approximates the source's recursion depth (every recursive call
consumes at least one buffer byte), so the artificial `.fuel` outcome is
unreachable on the inputs considered here. -/
def Unpacker.unpack (ub : UnpackableBuffer) :
    Except UnpackError (MessageValue × UnpackableBuffer) :=
  Unpacker.unpackFuel (2 * ub.buffer.length + 2) ub

/-- Decode a byte list, as `read_message` does after reassembly:
`UnpackableBuffer::new(Some(data))` (so `used = len`, `pos = 0`) followed
by `Unpacker::unpack`, keeping only the value. -/
def Unpacker.decode (base : Nat) (l : List Nat) : Except UnpackError MessageValue :=
  match Unpacker.unpack { base := base, buffer := l, used := l.length, pos := 0 } with
  | .ok (v, _) => .ok v
  | .error e => .error e

/-- Outcomes of the framing layer.  `panicCopyFromSlice` models the Rust
panic raised by `Vec::copy_from_slice` when source and destination have
different lengths (`data.copy_from_slice(chunk_buf.as_ref())` in
`read_message`); `fuel` is again an unreachable embedding artifact. -/
inductive WireError where
  | panicCopyFromSlice
  | unpackError (e : UnpackError)
  | fuel
  deriving DecidableEq

/-- The `while more` loop of `PackStream::read_message` over a
deterministic inbound byte stream.  One `reader.read(&mut head_buf).await`
fills `min(2, remaining)` bytes: with fewer than 2 bytes left the `Ok(_)`
arm sets `more = false`; otherwise the two header bytes give
`chunk_size = u16::from_be_bytes`.  A nonzero chunk reads
`min(chunk_size, remaining)` bytes into the zero-initialised `chunk_buf`
(the count, `_chunk_read`, is discarded) and then executes
`data.copy_from_slice(chunk_buf)` — an overwrite that panics unless
`data.len() == chunk_buf.len()`.  A zero `chunk_size` does nothing and the
loop continues. -/
def PackStream.readMessageLoop : Nat → List Nat → List Nat →
    Except WireError (List Nat)
  | 0, _, _ => .error .fuel
  | fuel + 1, a :: b :: rest, data =>
    let chunk_size := 256 * a + b
    if chunk_size ≠ 0 then
      let avail := rest.take chunk_size
      let chunk_buf := avail ++ List.replicate (chunk_size - avail.length) 0
      if data.length = chunk_buf.length then
        PackStream.readMessageLoop fuel (rest.drop chunk_size) chunk_buf
      else .error .panicCopyFromSlice
    else
      PackStream.readMessageLoop fuel rest data
  | _ + 1, _, data => .ok data

/-- `PackStream::read_message`: run the chunk loop with `data`
initially empty, then hand the reassembled bytes to a fresh
`Unpacker`. -/
def PackStream.read_message (base : Nat) (stream : List Nat) :
    Except WireError MessageValue :=
  match PackStream.readMessageLoop (stream.length + 1) stream [] with
  | .error e => .error e
  | .ok data =>
    match Unpacker.decode base data with
    | .error e => .error (.unpackError e)
    | .ok v => .ok v

/-- `PackStream::write_message`: pack the structure into a fresh
`MessageBuffer::new(8192)`, then form the wire bytes
`[div as u8, modu as u8] ++ data ++ [0x00, 0x00]` where
`data = packer.stream.buffer` is the *entire* 8192-byte buffer (not just
the `cursor`-long written prefix) and `div`/`modu` are
`data.len() / 0x100` and `data.len() % 0x100`. -/
def PackStream.write_message (tag : Nat) (fields : List MessageValue) :
    Except PackError (List Nat) :=
  match Packer.pack (.Structure tag fields) (MessageBuffer.new 8192) with
  | .error e => .error e
  | .ok mb =>
    let data := mb.buffer
    let term := [0x00, 0x00]
    let div := data.length / 0x100
    let modu := data.length % 0x100
    .ok (div % 256 :: modu % 256 :: (data ++ term))

/-! ### Helper lemmas about the encode sink -/

theorem beBytes_length (w n : Nat) : (beBytes w n).length = w := by
  simp [beBytes]

theorem beBytes_one (n : Nat) : beBytes 1 n = [n % 256] := by
  simp [beBytes]

theorem toBeBytesSigned_one (i : Int) :
    toBeBytesSigned 1 i = [(i % 256).toNat] := by
  have h0 : (0 : Int) ≤ i % 256 := Int.emod_nonneg i (by norm_num)
  have h1 : i % 256 < 256 := Int.emod_lt_of_pos i (by norm_num)
  simp only [toBeBytesSigned, pow_one, Nat.cast_ofNat, beBytes_one]
  congr 1
  omega

theorem beToInt_one (m : Nat) :
    beToInt 1 [m] = if m < 128 then (m : Int) else (m : Int) - 256 := by
  simp [beToInt, beToNat]

/-- `try_write` with enough remaining room appends exactly `data`:
the written prefix grows by `data`, the cursor advances by `data.length`,
and the buffer keeps its length. -/
theorem MessageBuffer.try_write_spec (mb : MessageBuffer) (data : List Nat)
    (h : mb.cursor + data.length ≤ mb.buffer.length) :
    (mb.try_write data).1.emitted = mb.emitted ++ data
    ∧ (mb.try_write data).1.cursor = mb.cursor + data.length
    ∧ (mb.try_write data).1.buffer.length = mb.buffer.length := by
  have hmin : min data.length (mb.buffer.length - mb.cursor) = data.length := by
    omega
  have hlen : (mb.buffer.take mb.cursor ++ data).length
      = mb.cursor + data.length := by
    simp [List.length_take]
    omega
  refine ⟨?_, ?_, ?_⟩
  · simp only [MessageBuffer.try_write, MessageBuffer.emitted, hmin,
      List.take_length]
    rw [List.append_assoc] at *
    rw [← List.append_assoc (mb.buffer.take mb.cursor) data]
    exact List.take_left' hlen
  · simp [MessageBuffer.try_write, hmin]
  · simp only [MessageBuffer.try_write, hmin, List.length_append,
      List.length_take, List.length_drop]
    omega

/-- Whatever the data and however full the buffer, `try_write` keeps the
buffer length fixed and the cursor within bounds. -/
theorem MessageBuffer.try_write_length (mb : MessageBuffer) (data : List Nat)
    (hc : mb.cursor ≤ mb.buffer.length) :
    (mb.try_write data).1.buffer.length = mb.buffer.length
    ∧ (mb.try_write data).1.cursor ≤ (mb.try_write data).1.buffer.length := by
  refine ⟨?_, ?_⟩
  · simp only [MessageBuffer.try_write, List.length_append, List.length_take,
      List.length_drop]
    omega
  · have h1 : (mb.try_write data).1.buffer.length = mb.buffer.length := by
      simp only [MessageBuffer.try_write, List.length_append, List.length_take,
        List.length_drop]
      omega
    rw [h1]
    simp only [MessageBuffer.try_write]
    omega

/-- Two chained `try_write`s keep the buffer length fixed and the cursor
in bounds. -/
theorem MessageBuffer.try_write2_length (mb : MessageBuffer)
    (d1 d2 : List Nat) (hc : mb.cursor ≤ mb.buffer.length) :
    ((mb.try_write d1).1.try_write d2).1.buffer.length = mb.buffer.length
    ∧ ((mb.try_write d1).1.try_write d2).1.cursor
        ≤ ((mb.try_write d1).1.try_write d2).1.buffer.length := by
  obtain ⟨h1, h2⟩ := mb.try_write_length d1 hc
  obtain ⟨h3, h4⟩ := (mb.try_write d1).1.try_write_length d2 (by omega)
  exact ⟨by omega, h4⟩

theorem Packer.pack_string_header_length (n : Nat) (mb mb2 : MessageBuffer)
    (hc : mb.cursor ≤ mb.buffer.length)
    (h : Packer.pack_string_header n mb = .ok mb2) :
    mb2.buffer.length = mb.buffer.length
    ∧ mb2.cursor ≤ mb2.buffer.length := by
  unfold Packer.pack_string_header at h
  split_ifs at h
  · injection h with h; subst h; exact mb.try_write_length _ hc
  · injection h with h; subst h; exact mb.try_write2_length _ _ hc
  · injection h with h; subst h; exact mb.try_write2_length _ _ hc

theorem Packer.pack_bytes_header_length (n : Nat) (mb mb2 : MessageBuffer)
    (hc : mb.cursor ≤ mb.buffer.length)
    (h : Packer.pack_bytes_header n mb = .ok mb2) :
    mb2.buffer.length = mb.buffer.length
    ∧ mb2.cursor ≤ mb2.buffer.length := by
  unfold Packer.pack_bytes_header at h
  split_ifs at h
  · injection h with h; subst h; exact mb.try_write2_length _ _ hc
  · injection h with h; subst h; exact mb.try_write2_length _ _ hc
  · injection h with h; subst h; exact mb.try_write2_length _ _ hc

mutual

/-- A successful `pack` never changes the sink's length (the fixed
`vec![0; capacity]` is only written into, never grown) and keeps the
cursor within it. -/
theorem Packer.pack_length :
    ∀ (v : MessageValue) (mb mb2 : MessageBuffer),
      mb.cursor ≤ mb.buffer.length → Packer.pack v mb = .ok mb2 →
      mb2.buffer.length = mb.buffer.length ∧ mb2.cursor ≤ mb2.buffer.length
  | .Null, mb, mb2, hc, h => by
      injection h with h
      subst h
      exact mb.try_write_length _ hc
  | .Bool b, mb, mb2, hc, h => by
      cases b <;>
        (simp only [Packer.pack] at h; injection h with h; subst h;
         exact mb.try_write_length _ hc)
  | .Float bits, mb, mb2, hc, h => by
      injection h with h
      subst h
      exact mb.try_write2_length _ _ hc
  | .TinyInt i, mb, mb2, hc, h => by
      simp only [Packer.pack] at h
      split_ifs at h <;> (injection h with h; subst h)
      · exact mb.try_write_length _ hc
      · exact mb.try_write2_length _ _ hc
  | .SmallInt i, mb, mb2, hc, h => by
      injection h with h
      subst h
      exact mb.try_write2_length _ _ hc
  | .Int i, mb, mb2, hc, h => by
      injection h with h
      subst h
      exact mb.try_write2_length _ _ hc
  | .BigInt i, mb, mb2, hc, h => by
      injection h with h
      subst h
      exact mb.try_write2_length _ _ hc
  | .String s, mb, mb2, hc, h => by
      simp only [Packer.pack] at h
      split at h
      · cases h
      case _ mb1 heq =>
        injection h with h
        subst h
        obtain ⟨h1, h2⟩ := Packer.pack_string_header_length _ _ _ hc heq
        obtain ⟨h3, h4⟩ := mb1.try_write_length s h2
        exact ⟨by omega, h4⟩
  | .Bytes b, mb, mb2, hc, h => by
      simp only [Packer.pack] at h
      split at h
      · cases h
      case _ mb1 heq =>
        injection h with h
        subst h
        obtain ⟨h1, h2⟩ := Packer.pack_bytes_header_length _ _ _ hc heq
        obtain ⟨h3, h4⟩ := mb1.try_write_length b h2
        exact ⟨by omega, h4⟩
  | .Structure tag fields, mb, mb2, hc, h => by
      simp only [Packer.pack] at h
      split_ifs at h
      obtain ⟨h1, h2⟩ := mb.try_write2_length [0xB0 + fields.length] [tag] hc
      obtain ⟨h3, h4⟩ := Packer.packFields_length fields _ mb2 h2 h
      exact ⟨by omega, h4⟩

/-- `packFields` preserves the sink length, by the same argument. -/
theorem Packer.packFields_length :
    ∀ (l : List MessageValue) (mb mb2 : MessageBuffer),
      mb.cursor ≤ mb.buffer.length → Packer.packFields l mb = .ok mb2 →
      mb2.buffer.length = mb.buffer.length ∧ mb2.cursor ≤ mb2.buffer.length
  | [], mb, mb2, hc, h => by
      injection h with h
      subst h
      exact ⟨rfl, hc⟩
  | f :: fs, mb, mb2, hc, h => by
      simp only [Packer.packFields] at h
      split at h
      · cases h
      case _ mb1 heq =>
        obtain ⟨h1, h2⟩ := Packer.pack_length f mb mb1 hc heq
        obtain ⟨h3, h4⟩ := Packer.packFields_length fs mb1 mb2 h2 h
        exact ⟨by omega, h4⟩

end

theorem MessageBuffer.new_cursor (c : Nat) : (MessageBuffer.new c).cursor = 0 :=
  rfl

theorem MessageBuffer.new_length (c : Nat) :
    (MessageBuffer.new c).buffer.length = c := by
  simp [MessageBuffer.new]

theorem MessageBuffer.new_emitted (c : Nat) : (MessageBuffer.new c).emitted = [] := by
  simp [MessageBuffer.new, MessageBuffer.emitted]

/-- Packing a run of `n` `Null` fields appends `n` `0xC0` bytes when there
is room. -/
theorem Packer.packFields_nulls :
    ∀ (n : Nat) (mb : MessageBuffer), mb.cursor + n ≤ mb.buffer.length →
      ∃ mb2, Packer.packFields (List.replicate n .Null) mb = .ok mb2
        ∧ mb2.emitted = mb.emitted ++ List.replicate n 0xC0
        ∧ mb2.cursor = mb.cursor + n
        ∧ mb2.buffer.length = mb.buffer.length := by
  intro n
  induction n with
  | zero =>
    intro mb h
    exact ⟨mb, by simp [Packer.packFields], by simp, by simp, rfl⟩
  | succ n ih =>
    intro mb h
    obtain ⟨he, hcur, hlen⟩ := mb.try_write_spec [0xC0] (by simp; omega)
    simp only [List.length_singleton] at hcur
    obtain ⟨mb2, hrun, he2, hcur2, hlen2⟩ :=
      ih (mb.try_write [0xC0]).1 (by omega)
    refine ⟨mb2, ?_, ?_, by omega, by omega⟩
    · rw [List.replicate_succ]
      simp only [Packer.packFields, Packer.pack]
      exact hrun
    · rw [he2, he, List.replicate_succ]
      simp

/-! ### Wire-format scenarios from the encoder/decoder grammar -/

theorem packedBytes_struct_int_scenario :
    Packer.packedBytes (.Structure 1 [.Int 42]) 64
      = .ok [0xB1, 0x01, 0xCA, 0x00, 0x00, 0x00, 0x2A] := rfl

theorem decode_struct_int_scenario :
    Unpacker.decode 0 [0xB1, 0x01, 0xCA, 0x00, 0x00, 0x00, 0x2A]
      = .ok (.Structure 1 [.Int 42]) := rfl

theorem packedBytes_tiny_string_scenario :
    Packer.packedBytes (.String [0x61, 0x62, 0x63]) 64
      = .ok [0x83, 0x61, 0x62, 0x63] := rfl

/-! ### Settled claims -/

/-- C1: the claim states `decode(encode(v)) == v` for every representable
value.  It fails already for `Bytes([])`: the encoder emits `0xCC`
followed by the 8 native `usize` length bytes, and the decoder's `0xCC`
arm then reads `self.read(1)?.as_ptr() as usize` content bytes — the
*address* of the length slice (`base + 1` in the embedding), so for every
allocation address past the toy range the decode attempt dies with
end-of-data instead of returning `Bytes([])`. -/
theorem roundTrip_fails_on_bytes :
    Packer.packedBytes (.Bytes []) 64 = .ok [0xCC, 0, 0, 0, 0, 0, 0, 0, 0]
    ∧ (∀ base : Nat, 7 ≤ base →
        Unpacker.decode base [0xCC, 0, 0, 0, 0, 0, 0, 0, 0] = .error .eof) := by
  constructor
  · rfl
  · intro base hb
    have hcond : 2 + (base + 1) > 9 := by omega
    simp [Unpacker.decode, Unpacker.unpack, Unpacker.unpackFuel,
      UnpackableBuffer.read_u8, UnpackableBuffer.read, hcond]

theorem roundTrip_fails_on_bytes_witness :
    Unpacker.decode 4096 [0xCC, 0, 0, 0, 0, 0, 0, 0, 0] = .error .eof :=
  roundTrip_fails_on_bytes.2 4096 (by norm_num)

/-- C2: the claim states `write_message` emits a 2-byte big-endian length
equal to the encoded payload size, exactly those payload bytes, then the
zero terminator.  In fact `write_message` sends `packer.stream.buffer` —
the whole fixed 8192-byte sink, zero padding included — so every wire
message is `2 + 8192 + 2 = 8196` bytes long and its chunk header is
always `[0x20, 0x00]` (8192), regardless of the structure encoded. -/
theorem write_message_sends_whole_buffer :
    ∀ (tag : Nat) (fields : List MessageValue) (out : List Nat),
      PackStream.write_message tag fields = .ok out →
      out.length = 8196 ∧ out.take 2 = [0x20, 0x00] := by
  intro tag fields out h
  unfold PackStream.write_message at h
  split at h
  · cases h
  case _ mb heq =>
    have hinv := Packer.pack_length _ _ _
      (by rw [MessageBuffer.new_cursor]; omega) heq
    have hlen : mb.buffer.length = 8192 := by
      rw [hinv.1, MessageBuffer.new_length]
    injection h with h
    subst h
    exact ⟨by simp [hlen], by simp [hlen]⟩

theorem write_message_sends_whole_buffer_witness :
    ∃ out, PackStream.write_message 1 [] = .ok out
      ∧ out.length = 8196 ∧ out.take 2 = [0x20, 0x00] := by
  have hpack : Packer.pack (.Structure 1 []) (MessageBuffer.new 8192)
      = .ok ((((MessageBuffer.new 8192).try_write [0xB0 + 0]).1).try_write [1]).1 := by
    simp [Packer.pack, Packer.packFields]
  have hwm : PackStream.write_message 1 []
      = .ok (((((MessageBuffer.new 8192).try_write [0xB0 + 0]).1).try_write [1]).1.buffer.length
              / 0x100 % 256
          :: ((((MessageBuffer.new 8192).try_write [0xB0 + 0]).1).try_write [1]).1.buffer.length
              % 0x100 % 256
          :: (((((MessageBuffer.new 8192).try_write [0xB0 + 0]).1).try_write [1]).1.buffer
              ++ [0x00, 0x00])) := by
    unfold PackStream.write_message
    rw [hpack]
  exact ⟨_, hwm, (write_message_sends_whole_buffer 1 [] _ hwm).1,
    (write_message_sends_whole_buffer 1 [] _ hwm).2⟩

/-- C3: the claim states `read_message` appends each nonzero chunk to the
reassembly buffer and stops at a zero-length header.  In fact the loop
body runs `data.copy_from_slice(chunk_buf)` on the initially empty `data`
— a Rust panic for any nonzero chunk (nothing is ever appended) — and a
zero-length header does *not* end the loop: the first input below is a
single well-formed chunked message yet panics, and the second starts with
the `0x0000` terminator yet the loop keeps going and panics on the chunk
that follows it. -/
theorem read_message_overwrites_and_ignores_terminator :
    PackStream.read_message 0 [0x00, 0x01, 0xC0, 0x00, 0x00]
      = .error .panicCopyFromSlice
    ∧ PackStream.read_message 0 [0x00, 0x00, 0x00, 0x01, 0x2A]
      = .error .panicCopyFromSlice := ⟨rfl, rfl⟩

/-- C4: the claim states `pack` appends the complete encoding, growing
the sink when it is full.  In fact the sink is a fixed-capacity buffer and
`try_write` silently truncates: packing `SmallInt(5)` into a 1-byte sink
returns `Ok` having written only the `0xC9` marker and dropped both value
bytes, while the same value in a roomy sink is 3 bytes. -/
theorem pack_truncates_in_full_sink :
    Packer.packedBytes (.SmallInt 5) 1 = .ok [0xC9]
    ∧ Packer.packedBytes (.SmallInt 5) 64 = .ok [0xC9, 0x00, 0x05] := ⟨rfl, rfl⟩

/-- C5: the claim states string/bytes length prefixes use exactly the
1/2/4 bytes declared by the marker.  In fact a 16-byte string hits the
`panic!("String header size overflow")` arm (the `0x10..=0xFF` range was
written as the shadowed `0x00..=0xF`), and the surviving `0xD1`/`0xCC`
arms emit `usize::to_be_bytes` — all 8 native bytes — as the length
prefix. -/
theorem length_prefix_widths_are_wrong :
    Packer.packedBytes (.String (List.replicate 16 0x61)) 64
      = .error .panicStringHeaderOverflow
    ∧ Packer.packedBytes (.String (List.replicate 300 0x61)) 400
      = .ok (0xD1 :: (beBytes 8 300 ++ List.replicate 300 0x61))
    ∧ beBytes 8 300 = [0, 0, 0, 0, 0, 0, 0x01, 0x2C]
    ∧ Packer.packedBytes (.Bytes [7]) 64 = .ok (0xCC :: (beBytes 8 1 ++ [7]))
    ∧ beBytes 8 1 = [0, 0, 0, 0, 0, 0, 0, 1] :=
  ⟨rfl, rfl, rfl, rfl, rfl⟩

/-- C6: the claim states the decoder interprets the 1/2/4 trailing length
bytes of `0xCC`–`0xCE`/`0xD0`–`0xD2` as the content length.  In fact the
`0xCC` arm uses `self.read(1)?.as_ptr() as usize` — the slice's memory
address (`base + 1` in the embedding) — as the length, so for every
allocation address `base ≥ 3` the well-formed input `CC 03 01 02 03`
fails with end-of-data instead of producing `Bytes([1,2,3])`. -/
theorem bytes_arm_reads_pointer_as_length :
    ∀ base : Nat, 3 ≤ base →
      Unpacker.decode base [0xCC, 0x03, 0x01, 0x02, 0x03] = .error .eof := by
  intro base hb
  have hcond : 2 + (base + 1) > 5 := by omega
  simp [Unpacker.decode, Unpacker.unpack, Unpacker.unpackFuel,
    UnpackableBuffer.read_u8, UnpackableBuffer.read, hcond]

theorem bytes_arm_reads_pointer_as_length_witness :
    Unpacker.decode 4096 [0xCC, 0x03, 0x01, 0x02, 0x03] = .error .eof :=
  bytes_arm_reads_pointer_as_length 4096 (by norm_num)

/-- C7: the claim states structures of 0 or 15 fields encode and 16
fields yields an inspectable `EncodeOverflow` error.  The first half
holds: `n ≤ 15` fields emit `0xB0+n`, the tag byte, then the fields.  But
16 or more fields hit `panic!("Struct size overflow")` — modelled as the
`panicStructSizeOverflow` outcome — an abort, not a returned
`std::io::Error` value. -/
theorem struct_arity_encode_behaviour :
    (∀ tag n : Nat, n ≤ 15 →
      Packer.packedBytes (.Structure tag (List.replicate n .Null)) 8192
        = .ok ((0xB0 + n) :: tag :: List.replicate n 0xC0))
    ∧ (∀ (tag : Nat) (fields : List MessageValue) (mb : MessageBuffer),
        16 ≤ fields.length →
        Packer.pack (.Structure tag fields) mb
          = .error .panicStructSizeOverflow) := by
  constructor
  · intro tag n hn
    obtain ⟨e1, c1, l1⟩ :=
      (MessageBuffer.new 8192).try_write_spec [0xB0 + n]
        (by rw [MessageBuffer.new_cursor, MessageBuffer.new_length]; simp)
    rw [MessageBuffer.new_length] at l1
    rw [MessageBuffer.new_cursor] at c1
    simp only [List.length_singleton] at c1
    obtain ⟨e2, c2, l2⟩ :=
      ((MessageBuffer.new 8192).try_write [0xB0 + n]).1.try_write_spec [tag]
        (by rw [c1, l1]; simp)
    simp only [List.length_singleton] at c2
    obtain ⟨mb2, hrun, he2, hcur2, hlen2⟩ :=
      Packer.packFields_nulls n _ (by rw [c2, c1, l2, l1]; omega)
    simp only [Packer.packedBytes, Packer.pack, List.length_replicate]
    rw [if_pos hn, hrun]
    simp [he2, e2, e1, MessageBuffer.new_emitted]
  · intro tag fields mb h
    simp only [Packer.pack]
    rw [if_neg (by omega)]

theorem struct_arity_encode_behaviour_witness :
    Packer.packedBytes (.Structure 7 (List.replicate 15 .Null)) 8192
      = .ok ((0xB0 + 15) :: 7 :: List.replicate 15 0xC0)
    ∧ Packer.pack (.Structure 7 (List.replicate 16 .Null)) (MessageBuffer.new 64)
      = .error .panicStructSizeOverflow :=
  ⟨struct_arity_encode_behaviour.1 7 15 (by norm_num),
   struct_arity_encode_behaviour.2 7 _ _ (by simp)⟩

/-- C8: the claim states invalid UTF-8 in a decoded string yields a
`DecodeMalformed` error.  In fact the decoder calls
`String::from_utf8(..).unwrap()`, so the tiny string `81 FF` (one content
byte `0xFF`, never valid UTF-8) is a Rust panic — modelled `panicUtf8` —
while a valid tiny string decodes normally. -/
theorem invalid_utf8_panics_decoder :
    Unpacker.decode 0 [0x81, 0xFF] = .error .panicUtf8
    ∧ Unpacker.decode 0 [0x83, 0x61, 0x62, 0x63]
      = .ok (.String [0x61, 0x62, 0x63]) := ⟨rfl, rfl⟩

/-- C9: the claim states any read past the available bytes — including
the leading marker of an empty source — fails with an end-of-data error.
`read(n)` does fail that way (second and third conjuncts), but the marker
is fetched with `read_u8`, which indexes `buffer[pos]` without any bounds
check: on an empty source that is a Rust panic (`panicIndex`), not an
error value. -/
theorem empty_source_marker_read_panics :
    Unpacker.decode 0 [] = .error .panicIndex
    ∧ Unpacker.decode 0 [0xC1] = .error .eof
    ∧ Unpacker.decode 0 [0xC9, 0x01] = .error .eof := ⟨rfl, rfl, rfl⟩

/-- C10: tiny-integer encoding and decoding behave exactly as claimed:
values in `[-16, 127]` are the single two's-complement byte with no
marker, values in `[-128, -17]` are `0xC8` plus that byte; decoding maps
a leading byte `≤ 0x7F` to its own value and a leading byte in
`[0xF0, 0xFF]` to the sign-extended value `byte - 256`; and the concrete
scenarios `encode(TinyInt(100)) = [0x64]`, `encode(TinyInt(-5)) = [0xFB]`
round-trip. -/
theorem tiny_int_encode_decode_correct :
    (∀ i : Int, -16 ≤ i → i ≤ 127 →
      Packer.packedBytes (.TinyInt i) 64 = .ok [(i % 256).toNat])
    ∧ (∀ i : Int, -128 ≤ i → i ≤ -17 →
      Packer.packedBytes (.TinyInt i) 64 = .ok [0xC8, (i % 256).toNat])
    ∧ (∀ (base m : Nat), m ≤ 0x7F →
      Unpacker.decode base [m] = .ok (.TinyInt (m : Int)))
    ∧ (∀ (base m : Nat), 0xF0 ≤ m → m ≤ 0xFF →
      Unpacker.decode base [m] = .ok (.TinyInt ((m : Int) - 256)))
    ∧ Packer.packedBytes (.TinyInt 100) 64 = .ok [0x64]
    ∧ Packer.packedBytes (.TinyInt (-5)) 64 = .ok [0xFB]
    ∧ Unpacker.decode 0 [0x64] = .ok (.TinyInt 100)
    ∧ Unpacker.decode 0 [0xFB] = .ok (.TinyInt (-5)) := by
  refine ⟨?_, ?_, ?_, ?_, rfl, rfl, rfl, rfl⟩
  · intro i h1 h2
    simp [Packer.packedBytes, Packer.pack, if_pos h1, toBeBytesSigned_one,
      MessageBuffer.new, MessageBuffer.try_write, MessageBuffer.emitted]
  · intro i h1 h2
    have h3 : ¬ (-0x10 ≤ i) := by omega
    simp [Packer.packedBytes, Packer.pack, if_neg h3, toBeBytesSigned_one,
      MessageBuffer.new, MessageBuffer.try_write, MessageBuffer.emitted]
  · intro base m hm
    have h0 : ¬ (m = 0xC0) := by omega
    have h2 : ¬ (m = 0xC2) := by omega
    have h3 : ¬ (m = 0xC3) := by omega
    have h1 : ¬ (m = 0xC1) := by omega
    simp [Unpacker.decode, Unpacker.unpack, Unpacker.unpackFuel,
      UnpackableBuffer.read_u8, UnpackableBuffer.read, h0, h1, h2, h3, hm,
      beToInt_one]
    omega
  · intro base m hm1 hm2
    have h0 : ¬ (m = 0xC0) := by omega
    have h2 : ¬ (m = 0xC2) := by omega
    have h3 : ¬ (m = 0xC3) := by omega
    have h1 : ¬ (m = 0xC1) := by omega
    have h7 : ¬ (m ≤ 0x7F) := by omega
    simp [Unpacker.decode, Unpacker.unpack, Unpacker.unpackFuel,
      UnpackableBuffer.read_u8, UnpackableBuffer.read, h0, h1, h2, h3, h7,
      hm1, hm2, beToInt_one]
    omega

theorem tiny_int_encode_decode_correct_witness :
    Packer.packedBytes (.TinyInt 3) 64 = .ok [3]
    ∧ Packer.packedBytes (.TinyInt (-20)) 64 = .ok [0xC8, 0xEC]
    ∧ Unpacker.decode 0 [0x05] = .ok (.TinyInt 5)
    ∧ Unpacker.decode 0 [0xF0] = .ok (.TinyInt (-16)) := by
  refine ⟨?_, ?_, ?_, ?_⟩
  · simpa using tiny_int_encode_decode_correct.1 3 (by norm_num) (by norm_num)
  · simpa using tiny_int_encode_decode_correct.2.1 (-20) (by norm_num) (by norm_num)
  · simpa using tiny_int_encode_decode_correct.2.2.1 0 5 (by norm_num)
  · simpa using tiny_int_encode_decode_correct.2.2.2.1 0 0xF0 (by norm_num) (by norm_num)
